import Mathlib

/-!
# Shallow embedding of `vague` (src/include/vague/state_estimator.hpp)

The repository is a single C++ header implementing a recursive Bayesian
state estimator (Kalman-filter family).  We embed it over exact rational
arithmetic:

* vectors of dimension `n` are `Fin n → ℚ`;
* matrices are Mathlib's `Matrix (Fin n) (Fin m) ℚ`;
* the opaque `TimePoint` type (a `std::chrono` time point) is modelled as
  `ℚ` (seconds); subtraction of time points yields the elapsed duration and
  `duration_cast<duration<Scalar>>` is the identity in this model;
* `predict`, which can throw `std::runtime_error("Unable to wind back time")`
  (the spec's InvalidTimeOrder condition), returns `Except PredictErr`;
  `predict_observation` and `assimilate` are `noexcept` in the source and are
  embedded as total functions.  `predict_observation` is a `const` member
  function: it is embedded as a pure function that returns the predicted
  observation and produces no new estimator state.

The external headers `estimate.hpp` (the `MeanAndCovariance` container) and
`unscented_transform.hpp` (sigma-point sampling) are not under `src/`; the
data container is reconstructed from its use sites, and everything concerning
sigma points is modelled from the spec (§2, §4.1, §4.2, §6) as noted on the
individual definitions.
-/

namespace Vague

/-- Column vector of dimension `n` over the exact scalars. -/
abbrev Vec (n : ℕ) := Fin n → ℚ

/-- `n × m` matrix over the exact scalars. -/
abbrev Mat (n m : ℕ) := Matrix (Fin n) (Fin m) ℚ

/-- The `MeanAndCovariance` container from `estimate.hpp` (declared external to
the core; reconstructed from its use sites in `state_estimator.hpp`): a mean
vector and a covariance matrix over a space of dimension `n`. -/
structure MeanAndCovariance (n : ℕ) where
  mean : Vec n
  covariance : Mat n n

/-- `PredictedObservation` (state_estimator.hpp, lines 12-22): a
`MeanAndCovariance` over the observation space plus the state/observation
cross covariance. -/
structure PredictedObservation (n m : ℕ) extends MeanAndCovariance m where
  cross_covariance : Mat n m

/-- `TimeDependentAdditiveProcessNoise` (state_estimator.hpp, lines 24-36):
holds a fixed per-second noise-rate matrix. -/
structure TimeDependentAdditiveProcessNoise (n : ℕ) where
  process_noise_per_second : Mat n n

/-- `TimeDependentAdditiveProcessNoise::operator()` (lines 32-34):
`covariance += dt * process_noise_per_second` and the result is returned.
The mean argument is taken by const reference and never read or written. -/
def TimeDependentAdditiveProcessNoise.run {n : ℕ}
    (pn : TimeDependentAdditiveProcessNoise n) (dt : ℚ) (_mean : Vec n)
    (covariance : Mat n n) : Mat n n :=
  covariance + dt • pn.process_noise_per_second

/-- The error thrown by `StateEstimator::predict` (line 54,
`std::runtime_error("Unable to wind back time")`), which the spec names
InvalidTimeOrder. -/
inductive PredictErr where
  | invalidTimeOrder

/-- `StateEstimator` (state_estimator.hpp, lines 38-109): owns the current
time and the current belief. -/
structure StateEstimator (n : ℕ) where
  time : ℚ
  estimate : MeanAndCovariance n

/-- A weighted sigma-point set over a space of dimension `n`, with `k` points.

Modelled from the spec: the sigma-point batch interface of
`unscented_transform.hpp` / `estimate.hpp` is not under `src/`; spec §6
describes it as a weighted point set exposing `weights`,
`mean_centered_samples()` and `statistics()`. -/
structure SigmaPoints (n k : ℕ) where
  points : Mat n k
  weights : Vec k

namespace SigmaPoints

/-- Modelled from the spec: the weighted mean of the point set, the first
component of `mean_centered_samples()` (spec §6). -/
def mean {n k : ℕ} (sp : SigmaPoints n k) : Vec n :=
  sp.points.mulVec sp.weights

/-- Modelled from the spec: the matrix of points minus the weighted mean, the
second component of `mean_centered_samples()` (spec §6). -/
def centered {n k : ℕ} (sp : SigmaPoints n k) : Mat n k :=
  fun i j => sp.points i j - sp.mean i

/-- Modelled from the spec: `statistics()` recombines a weighted point set
into mean and covariance (spec §6); the covariance is the weighted sum of
outer products of the centered samples, i.e.
`centered * diagonal weights * centeredᵀ` (the recombination the source
itself spells out for the cross covariance at lines 89-90). -/
def statistics {n k : ℕ} (sp : SigmaPoints n k) : MeanAndCovariance n :=
  { mean := sp.mean
    covariance := sp.centered * Matrix.diagonal sp.weights * sp.centered.transpose }

end SigmaPoints

namespace StateEstimator

/-- `StateEstimator::predict` (lines 49-71), the differentiable-dynamics
branch of the `if constexpr` dispatch (line 61: `estimate = dynamics(estimate, dt)`).
The time-order guards (lines 51-54) run first: a zero duration returns with no
mutation, a negative duration throws before any mutation.  Afterwards `time`
is set to `t` and the process-noise strategy replaces the propagated
covariance (lines 66-70), with the mean passed read-only. -/
def predict {n : ℕ} (e : StateEstimator n) (t : ℚ)
    (dynamics : MeanAndCovariance n → ℚ → MeanAndCovariance n)
    (process_noise : ℚ → Vec n → Mat n n → Mat n n) :
    Except PredictErr (StateEstimator n) :=
  let duration := t - e.time
  if duration = 0 then .ok e
  else if duration < 0 then .error .invalidTimeOrder
  else
    let dt := duration
    let propagated := dynamics e.estimate dt
    .ok { time := t
          estimate := { mean := propagated.mean
                        covariance := process_noise dt propagated.mean propagated.covariance } }

/-- `StateEstimator::predict` (lines 49-71), the sampled (sigma-point)
branch of the dispatch (line 64:
`estimate = dynamics(sample(estimate, CubatureSigmaPoints()), dt).statistics()`).
The external sampler `sample(·, CubatureSigmaPoints())` lives in
`unscented_transform.hpp`, which is not under `src/`; modelled from the spec
(§4.1) as a function argument producing a weighted point set, with its
exactness stated as a hypothesis where needed.  The time-order guards and the
process-noise application are shared with the differentiable branch. -/
def predict_sampled {n k : ℕ} (e : StateEstimator n) (t : ℚ)
    (sample : MeanAndCovariance n → SigmaPoints n k)
    (dynamics : SigmaPoints n k → ℚ → SigmaPoints n k)
    (process_noise : ℚ → Vec n → Mat n n → Mat n n) :
    Except PredictErr (StateEstimator n) :=
  let duration := t - e.time
  if duration = 0 then .ok e
  else if duration < 0 then .error .invalidTimeOrder
  else
    let dt := duration
    let propagated := (dynamics (sample e.estimate) dt).statistics
    .ok { time := t
          estimate := { mean := propagated.mean
                        covariance := process_noise dt propagated.mean propagated.covariance } }

end StateEstimator

/-- The observer interface consumed by the differentiable branch of
`predict_observation` (lines 76-79): direct invocation on the current belief
plus augmenting arguments (`α` stands for the variadic augmented-state pack),
and a `jacobian` operation. -/
structure Observer (n m : ℕ) (α : Type) where
  run : MeanAndCovariance n → α → MeanAndCovariance m
  jacobian : MeanAndCovariance n → α → Mat m n

/-- The observer interface consumed by the sampled branch of
`predict_observation` (line 85): invocation on a sigma-point set plus
augmenting arguments, producing an observation-space sigma-point set. -/
structure SampledObserver (n m k : ℕ) (α : Type) where
  run : SigmaPoints n k → α → SigmaPoints m k

namespace StateEstimator

/-- `StateEstimator::predict_observation` (lines 73-92), differentiable
branch (lines 78-79): the observer is invoked directly on the current belief
and the cross covariance is `estimate.covariance * jacobian(...)ᵀ`.  The
member function is `const noexcept`: it reads only `estimate` and produces no
new estimator state. -/
def predict_observation {n m : ℕ} {α : Type} (e : StateEstimator n)
    (observer : Observer n m α) (a : α) : PredictedObservation n m :=
  { toMeanAndCovariance := observer.run e.estimate a
    cross_covariance := e.estimate.covariance * (observer.jacobian e.estimate a).transpose }

/-- `StateEstimator::predict_observation` (lines 73-92), sampled branch
(lines 82-90): sigma points are drawn from the current belief, propagated
through the observer, recombined via `statistics()`, and the cross covariance
is `state_centered_samples * weights.asDiagonal() * predicted_obs_centered_samplesᵀ`.
The external sampler is modelled from the spec as a function argument, as in
`predict_sampled`.  `const noexcept` as above. -/
def predict_observation_sampled {n m k : ℕ} {α : Type} (e : StateEstimator n)
    (sample : MeanAndCovariance n → SigmaPoints n k)
    (observer : SampledObserver n m k α) (a : α) : PredictedObservation n m :=
  let sigma_points := sample e.estimate
  let predicted_obs_sigma_points := observer.run sigma_points a
  { toMeanAndCovariance := predicted_obs_sigma_points.statistics
    cross_covariance := sigma_points.centered * Matrix.diagonal sigma_points.weights
      * predicted_obs_sigma_points.centered.transpose }

end StateEstimator

/-- The matrix inverse computed by `Eigen::PartialPivLU::inverse()` at
line 102, in exact arithmetic: for an invertible matrix the LU-based inverse
is the unique inverse, `det⁻¹ • adjugate`.  (For a singular matrix the C++
result is numerically undefined; the spec only constrains the invertible
case, and the claims hypothesise invertibility.) -/
def luInverse {m : ℕ} (s : Mat m m) : Mat m m :=
  s.det⁻¹ • s.adjugate

/-- `StateEstimator::assimilate` (lines 94-105): innovation covariance
`S = predicted_observation.covariance + observation.covariance`, Kalman gain
`K = cross_covariance * S⁻¹` (via the LU solver), then
`mean += K * (observation.mean - predicted_observation.mean)` and
`covariance -= K * S * Kᵀ`.  `noexcept`; `time` is not touched. -/
def StateEstimator.assimilate {n m : ℕ} (e : StateEstimator n)
    (predicted_observation : PredictedObservation n m)
    (observation : MeanAndCovariance m) : StateEstimator n :=
  let observation_covariance_sum :=
    predicted_observation.covariance + observation.covariance
  let kalman_gain :=
    predicted_observation.cross_covariance * luInverse observation_covariance_sum
  let new_mean :=
    e.estimate.mean + kalman_gain.mulVec (observation.mean - predicted_observation.mean)
  let new_covariance :=
    e.estimate.covariance - kalman_gain * observation_covariance_sum * kalman_gain.transpose
  { time := e.time
    estimate := { mean := new_mean, covariance := new_covariance } }

/-- A linear dynamics model with transition matrix `A` on the differentiable
path: maps a belief `(m, P)` to `(A·m, A·P·Aᵀ)`, independent of `dt` (the
linear/EKF-style contract described in spec §4.1). -/
def linDynamics {n : ℕ} (A : Mat n n) :
    MeanAndCovariance n → ℚ → MeanAndCovariance n :=
  fun b _ => { mean := A.mulVec b.mean, covariance := A * b.covariance * A.transpose }

/-- The same linear dynamics applied per sigma point on the sampled path:
each point `x` maps to `A·x`, weights unchanged. -/
def linDynamicsSampled {n k : ℕ} (A : Mat n n) :
    SigmaPoints n k → ℚ → SigmaPoints n k :=
  fun sp _ => { points := A * sp.points, weights := sp.weights }

/-- A genuinely linear observer with observation matrix `H` on the
differentiable path: belief `(m, P)` maps to observation belief
`(H·m, H·P·Hᵀ)` and the Jacobian is the constant `H`. -/
def linObserver {n m : ℕ} (H : Mat m n) : Observer n m Unit :=
  { run := fun b _ => { mean := H.mulVec b.mean
                        covariance := H * b.covariance * H.transpose }
    jacobian := fun _ _ => H }

/-- The same linear observer applied per sigma point on the sampled path. -/
def linObserverSampled {n m k : ℕ} (H : Mat m n) : SampledObserver n m k Unit :=
  { run := fun sp _ => { points := H * sp.points, weights := sp.weights } }

/-- One successful operation on a `StateEstimator`: a `predict` (either
dispatch branch) that returns `ok`, a `predict_observation` (which produces
no new state, so the estimator is unchanged), or an `assimilate`. -/
inductive Step {n : ℕ} : StateEstimator n → StateEstimator n → Prop where
  | predict {e e' : StateEstimator n} (t : ℚ)
      (dynamics : MeanAndCovariance n → ℚ → MeanAndCovariance n)
      (process_noise : ℚ → Vec n → Mat n n → Mat n n)
      (h : e.predict t dynamics process_noise = .ok e') : Step e e'
  | predict_sampled {e e' : StateEstimator n} (k : ℕ) (t : ℚ)
      (sample : MeanAndCovariance n → SigmaPoints n k)
      (dynamics : SigmaPoints n k → ℚ → SigmaPoints n k)
      (process_noise : ℚ → Vec n → Mat n n → Mat n n)
      (h : e.predict_sampled t sample dynamics process_noise = .ok e') : Step e e'
  | predict_observation (e : StateEstimator n) : Step e e
  | assimilate {e : StateEstimator n} (m : ℕ)
      (predicted_observation : PredictedObservation n m)
      (observation : MeanAndCovariance m) :
      Step e (e.assimilate predicted_observation observation)

/-! ## Helper lemmas and concrete instances -/

/-- In exact arithmetic the LU-based inverse agrees with the mathematical
matrix inverse. -/
theorem luInverse_eq_inv {m : ℕ} (s : Mat m m) : luInverse s = s⁻¹ := by
  rw [Matrix.inv_def, luInverse, Ring.inverse_eq_inv]

/-- Evaluation of `luInverse` in dimension one. -/
theorem luInverse_fin_one (s : Mat 1 1) : luInverse s = fun _ _ => (s 0 0)⁻¹ := by
  funext i j
  fin_cases i; fin_cases j
  simp [luInverse, Matrix.det_fin_one, Matrix.adjugate_fin_one]

/-- The spec's concrete scalar scenario (§8): initial belief mean 0,
covariance 1. -/
def scalarBelief : MeanAndCovariance 1 :=
  { mean := fun _ => 0, covariance := fun _ _ => 1 }

/-- The spec's concrete scalar scenario: estimator at time 0 holding
`scalarBelief`. -/
def scalarEstimator : StateEstimator 1 :=
  { time := 0, estimate := scalarBelief }

/-- The spec's concrete scalar scenario: the predicted observation of the
initial belief under the identity observer (mean 0, covariance 1,
cross covariance 1). -/
def scalarPredicted : PredictedObservation 1 1 :=
  { mean := fun _ => 0, covariance := fun _ _ => 1, cross_covariance := fun _ _ => 1 }

/-- The spec's concrete scalar scenario: actual observation mean 5,
covariance 1. -/
def scalarObservation : MeanAndCovariance 1 :=
  { mean := fun _ => 5, covariance := fun _ _ => 1 }

/-- Scalar transition matrix `2`, used as a concrete linear dynamics. -/
def scalarTwo : Mat 1 1 := fun _ _ => 2

/-- Scalar process-noise rate `1`. -/
def scalarRate : TimeDependentAdditiveProcessNoise 1 :=
  { process_noise_per_second := fun _ _ => 1 }

/-! ## Claims -/

/-- C7: `TimeDependentAdditiveProcessNoise` constructed with per-second rate
matrix `Q` returns `covariance + dt • Q` when invoked, and the result does
not depend on the supplied mean (the strategy is embedded as a pure function,
so the mean, taken by const reference in the source, cannot be mutated; its
irrelevance to the result is stated explicitly). -/
theorem time_dependent_additive_process_noise_spec {n : ℕ} (Q : Mat n n)
    (dt : ℚ) (mean : Vec n) (covariance : Mat n n) :
    (TimeDependentAdditiveProcessNoise.mk Q).run dt mean covariance
        = covariance + dt • Q
      ∧ ∀ mean2 : Vec n,
        (TimeDependentAdditiveProcessNoise.mk Q).run dt mean2 covariance
          = (TimeDependentAdditiveProcessNoise.mk Q).run dt mean covariance :=
  ⟨rfl, fun _ => rfl⟩

/-- C2: `predict` with a target time strictly earlier than the current time
fails with the InvalidTimeOrder error on both dispatch branches, for every
dynamics model and process-noise strategy; since the embedded operation
returns only the error and no new state, the estimator's `time` and
`estimate` are exactly those before the call (the source throws before the
first mutation at line 56). -/
theorem predict_invalid_time_order {n : ℕ} (e : StateEstimator n) (t : ℚ)
    (h : t < e.time) :
    (∀ (dynamics : MeanAndCovariance n → ℚ → MeanAndCovariance n)
        (process_noise : ℚ → Vec n → Mat n n → Mat n n),
      e.predict t dynamics process_noise = .error .invalidTimeOrder)
    ∧ ∀ (k : ℕ) (sample : MeanAndCovariance n → SigmaPoints n k)
        (dynamics : SigmaPoints n k → ℚ → SigmaPoints n k)
        (process_noise : ℚ → Vec n → Mat n n → Mat n n),
      e.predict_sampled t sample dynamics process_noise = .error .invalidTimeOrder := by
  have h0 : ¬(t - e.time = 0) := sub_ne_zero_of_ne (ne_of_lt h)
  have h1 : t - e.time < 0 := sub_neg.mpr h
  constructor
  · intro dynamics process_noise
    simp [StateEstimator.predict, h0, h1]
  · intro k sample dynamics process_noise
    simp [StateEstimator.predict_sampled, h0, h1]

/-- Witness for C2 at a concrete input: target time `-1` precedes the
scalar estimator's time `0`. -/
theorem predict_invalid_time_order_witness :
    scalarEstimator.predict (-1) (linDynamics scalarTwo) scalarRate.run
      = .error .invalidTimeOrder :=
  (predict_invalid_time_order scalarEstimator (-1)
    (by norm_num [scalarEstimator])).1 _ _

/-- C5: `predict` to the current time is a no-op on both dispatch branches:
it succeeds and returns the estimator exactly as it was (`time` and both
`estimate` fields unchanged), for every dynamics model and process-noise
strategy — in particular the result does not depend on them, which is how
the embedding expresses that neither is invoked (the source returns at
line 53 before touching them). -/
theorem predict_equal_time_noop {n : ℕ} (e : StateEstimator n) (t : ℚ)
    (h : t = e.time) :
    (∀ (dynamics : MeanAndCovariance n → ℚ → MeanAndCovariance n)
        (process_noise : ℚ → Vec n → Mat n n → Mat n n),
      e.predict t dynamics process_noise = .ok e)
    ∧ ∀ (k : ℕ) (sample : MeanAndCovariance n → SigmaPoints n k)
        (dynamics : SigmaPoints n k → ℚ → SigmaPoints n k)
        (process_noise : ℚ → Vec n → Mat n n → Mat n n),
      e.predict_sampled t sample dynamics process_noise = .ok e := by
  have h0 : t - e.time = 0 := sub_eq_zero_of_eq h
  constructor
  · intro dynamics process_noise
    simp [StateEstimator.predict, h0]
  · intro k sample dynamics process_noise
    simp [StateEstimator.predict_sampled, h0]

/-- Witness for C5 at a concrete input: predicting to time `0`, the scalar
estimator's own time, returns it unchanged. -/
theorem predict_equal_time_noop_witness :
    scalarEstimator.predict 0 (linDynamics scalarTwo) scalarRate.run
      = .ok scalarEstimator :=
  (predict_equal_time_noop scalarEstimator 0
    (by norm_num [scalarEstimator])).1 _ _

/-- C1: `assimilate` with innovation covariance
`S = predicted_observation.covariance + observation.covariance` invertible
and Kalman gain `K = cross_covariance * S⁻¹` sets the mean to
`mean + K * (observation.mean - predicted_observation.mean)` and the
covariance to `covariance - K * S * Kᵀ`, and changes nothing else: the
result record shows `time` and every other field unchanged. -/
theorem assimilate_spec {n m : ℕ} (e : StateEstimator n)
    (po : PredictedObservation n m) (obs : MeanAndCovariance m)
    (_hS : IsUnit (po.covariance + obs.covariance).det) :
    e.assimilate po obs =
      { time := e.time
        estimate :=
          { mean := e.estimate.mean
              + (po.cross_covariance * (po.covariance + obs.covariance)⁻¹).mulVec
                  (obs.mean - po.mean)
            covariance := e.estimate.covariance
              - po.cross_covariance * (po.covariance + obs.covariance)⁻¹
                  * (po.covariance + obs.covariance)
                  * (po.cross_covariance * (po.covariance + obs.covariance)⁻¹).transpose } } := by
  simp only [StateEstimator.assimilate, luInverse_eq_inv]

/-- Witness for C1 at the concrete scalar inputs: the innovation covariance
`1 + 1 = 2` is invertible there. -/
theorem assimilate_spec_witness :
    IsUnit (scalarPredicted.covariance + scalarObservation.covariance).det
    ∧ scalarEstimator.assimilate scalarPredicted scalarObservation =
      { time := scalarEstimator.time
        estimate :=
          { mean := scalarEstimator.estimate.mean
              + (scalarPredicted.cross_covariance
                  * (scalarPredicted.covariance + scalarObservation.covariance)⁻¹).mulVec
                  (scalarObservation.mean - scalarPredicted.mean)
            covariance := scalarEstimator.estimate.covariance
              - scalarPredicted.cross_covariance
                  * (scalarPredicted.covariance + scalarObservation.covariance)⁻¹
                  * (scalarPredicted.covariance + scalarObservation.covariance)
                  * (scalarPredicted.cross_covariance
                      * (scalarPredicted.covariance + scalarObservation.covariance)⁻¹).transpose } } := by
  have hdet : IsUnit (scalarPredicted.covariance + scalarObservation.covariance).det := by
    rw [Matrix.det_fin_one]
    norm_num [scalarPredicted, scalarObservation, Matrix.add_apply]
  exact ⟨hdet, assimilate_spec scalarEstimator scalarPredicted scalarObservation hdet⟩

/-- C3: with a linear dynamics model of transition matrix `A` on the
differentiable path and the time-dependent additive process-noise strategy
with rate `Q`, predicting forward to `t` (with `dt = t - time`) succeeds and
yields mean `A·m`, covariance `A·P·Aᵀ + dt • Q`, and sets `time` to `t`. -/
theorem predict_linear_spec {n : ℕ} (e : StateEstimator n) (t : ℚ) (A : Mat n n)
    (pn : TimeDependentAdditiveProcessNoise n) (h : e.time < t) :
    e.predict t (linDynamics A) pn.run =
      .ok { time := t
            estimate :=
              { mean := A.mulVec e.estimate.mean
                covariance := A * e.estimate.covariance * A.transpose
                  + (t - e.time) • pn.process_noise_per_second } } := by
  have h0 : ¬(t - e.time = 0) := sub_ne_zero_of_ne (ne_of_gt h)
  have h1 : ¬(t - e.time < 0) := not_lt.mpr (le_of_lt (sub_pos.mpr h))
  simp [StateEstimator.predict, h0, h1, linDynamics,
    TimeDependentAdditiveProcessNoise.run]

/-- Witness for C3 at a concrete input: the scalar estimator (time 0,
mean 0, covariance 1) predicted to time 1 with transition matrix `2` and
noise rate `1` gives mean 0 and covariance `2·1·2 + 1·1 = 5`. -/
theorem predict_linear_spec_witness :
    scalarEstimator.predict 1 (linDynamics scalarTwo) scalarRate.run
      = .ok { time := 1
              estimate := { mean := fun _ => 0, covariance := fun _ _ => 5 } } := by
  rw [predict_linear_spec scalarEstimator 1 scalarTwo scalarRate
    (by norm_num [scalarEstimator])]
  have hmean : scalarTwo.mulVec scalarEstimator.estimate.mean = fun _ => (0:ℚ) := by
    funext i
    simp [scalarTwo, scalarEstimator, scalarBelief, Matrix.mulVec, Matrix.dotProduct]
  have hcov : scalarTwo * scalarEstimator.estimate.covariance * scalarTwo.transpose
      + ((1:ℚ) - scalarEstimator.time) • scalarRate.process_noise_per_second
      = fun _ _ => (5:ℚ) := by
    funext i j
    fin_cases i; fin_cases j
    simp [scalarTwo, scalarEstimator, scalarBelief, scalarRate, Matrix.mul_apply,
      Matrix.add_apply, Matrix.smul_apply, Matrix.transpose_apply, Fin.sum_univ_one]
    norm_num
  rw [hmean, hcov]

/-- C6: the spec's concrete scalar scenario: 1-dimensional state, estimate
mean 0 and covariance 1, one `assimilate` call against the belief's own
predicted observation under the identity observer (mean 0, covariance 1,
cross covariance 1) and an actual observation with mean 5 and covariance 1,
gives estimate mean 5/2 and covariance 1/2 exactly. -/
theorem assimilate_scalar_scenario :
    (scalarEstimator.assimilate scalarPredicted scalarObservation).estimate.mean
        = (fun _ => 5/2)
      ∧ (scalarEstimator.assimilate scalarPredicted scalarObservation).estimate.covariance
        = fun _ _ => 1/2 := by
  constructor
  · funext i
    fin_cases i
    simp [StateEstimator.assimilate, scalarEstimator, scalarBelief,
      scalarPredicted, scalarObservation, Matrix.mulVec, Matrix.dotProduct,
      Matrix.mul_apply, Fin.sum_univ_one]
    rw [luInverse_fin_one]
    norm_num [Matrix.add_apply]
  · funext i j
    fin_cases i; fin_cases j
    simp [StateEstimator.assimilate, scalarEstimator, scalarBelief,
      scalarPredicted, scalarObservation, Matrix.mul_apply, Matrix.sub_apply,
      Matrix.add_apply, Matrix.transpose_apply, Fin.sum_univ_one]
    rw [luInverse_fin_one]
    norm_num [Matrix.add_apply]

/-- Symmetry of `P - K * S * Kᵀ` given symmetry of `P` and `S`, for any
gain `K`. -/
theorem sub_gain_symm {n m : ℕ} (P : Mat n n) (K : Mat n m) (S : Mat m m)
    (hP : P.transpose = P) (hS : S.transpose = S) :
    (P - K * S * K.transpose).transpose = P - K * S * K.transpose := by
  rw [Matrix.transpose_sub, hP, Matrix.transpose_mul, Matrix.transpose_mul,
    Matrix.transpose_transpose, hS, Matrix.mul_assoc]

/-- C10: `assimilate` preserves symmetry of the state covariance in exact
arithmetic: if the prior covariance and the innovation covariance sum
`S = predicted_observation.covariance + observation.covariance` are symmetric
and `S` is invertible, the updated covariance `P - K·S·Kᵀ` is symmetric. -/
theorem assimilate_preserves_symmetry {n m : ℕ} (e : StateEstimator n)
    (po : PredictedObservation n m) (obs : MeanAndCovariance m)
    (hP : e.estimate.covariance.transpose = e.estimate.covariance)
    (hS : (po.covariance + obs.covariance).transpose
      = po.covariance + obs.covariance)
    (_hInv : IsUnit (po.covariance + obs.covariance).det) :
    ((e.assimilate po obs).estimate.covariance).transpose
      = (e.assimilate po obs).estimate.covariance := by
  simp only [StateEstimator.assimilate]
  exact sub_gain_symm _ _ _ hP hS

/-- Witness for C10 at the concrete scalar inputs, where every 1×1 matrix
involved is a constant and hence symmetric, and `S = 2` is invertible. -/
theorem assimilate_preserves_symmetry_witness :
    ((scalarEstimator.assimilate scalarPredicted scalarObservation).estimate.covariance).transpose
      = (scalarEstimator.assimilate scalarPredicted scalarObservation).estimate.covariance := by
  have hdet : IsUnit (scalarPredicted.covariance + scalarObservation.covariance).det := by
    have h2 : (scalarPredicted.covariance + scalarObservation.covariance).det = 2 := by
      rw [Matrix.det_fin_one]
      norm_num [scalarPredicted, scalarObservation, Matrix.add_apply]
    rw [h2]
    exact isUnit_iff_ne_zero.mpr (by norm_num)
  exact assimilate_preserves_symmetry scalarEstimator scalarPredicted
    scalarObservation rfl rfl hdet

/-- C8: `predict_observation` (both dispatch branches) always returns a
`PredictedObservation` and never mutates the estimator.  The member function
is `const noexcept` and is embedded as a total pure function, so it produces
no new estimator state and cannot fail; the theorem makes this observable:
the differentiable branch returns exactly the record built from the current
belief, and on both branches the result depends only on the `estimate` field
— any estimator with the same estimate (hypothesis `h`), in particular one
with a different `time`, receives the same result — so neither `time` nor
`estimate` influences or is influenced beyond the read of `estimate`. -/
theorem predict_observation_never_fails_never_mutates {n m k : ℕ} {α : Type}
    (e e' : StateEstimator n) (observer : Observer n m α)
    (sample : MeanAndCovariance n → SigmaPoints n k)
    (sampled_observer : SampledObserver n m k α) (a : α)
    (h : e'.estimate = e.estimate) :
    (e.predict_observation observer a =
      { toMeanAndCovariance := observer.run e.estimate a
        cross_covariance := e.estimate.covariance
          * (observer.jacobian e.estimate a).transpose })
    ∧ e'.predict_observation observer a = e.predict_observation observer a
    ∧ e'.predict_observation_sampled sample sampled_observer a
      = e.predict_observation_sampled sample sampled_observer a := by
  refine ⟨rfl, ?_, ?_⟩
  · simp [StateEstimator.predict_observation, h]
  · simp [StateEstimator.predict_observation_sampled, h]

/-- The scalar estimator with its time moved to 7 and its estimate
unchanged, used to witness that `predict_observation` reads only the
estimate. -/
def scalarEstimatorLater : StateEstimator 1 :=
  { time := 7, estimate := scalarBelief }

/-- The identity observer on the 1-dimensional state (observation matrix 1). -/
def scalarIdObserver : Observer 1 1 Unit := linObserver 1

/-- A sampled observer applying the identity map to each sigma point. -/
def scalarIdSampledObserver : SampledObserver 1 1 2 Unit := linObserverSampled 1

/-- A concrete two-point sigma-point set for the scalar belief: points `±1`
with weights `1/2` (the cubature rule for mean 0, covariance 1). -/
def scalarSigmaPoints : SigmaPoints 1 2 :=
  { points := fun _ j => if j.val = 0 then 1 else -1
    weights := fun _ => 1/2 }

/-- A sampler returning `scalarSigmaPoints` for the scalar belief. -/
def scalarSample : MeanAndCovariance 1 → SigmaPoints 1 2 :=
  fun _ => scalarSigmaPoints

/-- Witness for C8 at concrete inputs: two estimators sharing the scalar
belief but holding times 0 and 7 agree on both branches of
`predict_observation`. -/
theorem predict_observation_never_fails_never_mutates_witness :
    (scalarEstimator.predict_observation scalarIdObserver () =
      { toMeanAndCovariance := scalarIdObserver.run scalarEstimator.estimate ()
        cross_covariance := scalarEstimator.estimate.covariance
          * (scalarIdObserver.jacobian scalarEstimator.estimate ()).transpose })
    ∧ scalarEstimatorLater.predict_observation scalarIdObserver ()
      = scalarEstimator.predict_observation scalarIdObserver ()
    ∧ scalarEstimatorLater.predict_observation_sampled scalarSample
        scalarIdSampledObserver ()
      = scalarEstimator.predict_observation_sampled scalarSample
          scalarIdSampledObserver () :=
  predict_observation_never_fails_never_mutates scalarEstimator
    scalarEstimatorLater scalarIdObserver scalarSample scalarIdSampledObserver ()
    rfl

/-- A single successful `Step` never decreases the estimator's time. -/
theorem Step.time_le {n : ℕ} {e e' : StateEstimator n} (h : Step e e') :
    e.time ≤ e'.time := by
  cases h with
  | predict t dynamics process_noise h =>
    by_cases h0 : t - e.time = 0
    · rw [StateEstimator.predict] at h
      simp only [h0, if_pos rfl, reduceIte, Except.ok.injEq] at h
      rw [← h]
    · by_cases h1 : t - e.time < 0
      · rw [StateEstimator.predict] at h
        simp [h0, h1] at h
      · rw [StateEstimator.predict] at h
        simp only [h0, h1, if_false, reduceIte, Except.ok.injEq] at h
        have ht : e'.time = t := by rw [← h]
        rw [ht]
        have : 0 ≤ t - e.time := not_lt.mp h1
        linarith
  | predict_sampled k t sample dynamics process_noise h =>
    by_cases h0 : t - e.time = 0
    · rw [StateEstimator.predict_sampled] at h
      simp only [h0, if_pos rfl, reduceIte, Except.ok.injEq] at h
      rw [← h]
    · by_cases h1 : t - e.time < 0
      · rw [StateEstimator.predict_sampled] at h
        simp [h0, h1] at h
      · rw [StateEstimator.predict_sampled] at h
        simp only [h0, h1, if_false, reduceIte, Except.ok.injEq] at h
        have ht : e'.time = t := by rw [← h]
        rw [ht]
        have : 0 ≤ t - e.time := not_lt.mp h1
        linarith
  | predict_observation => exact le_refl _
  | assimilate m po obs => exact le_refl _

/-- C9: along every sequence of successful operations (`predict` on either
branch, `predict_observation`, `assimilate`) the estimator's time is
monotonically non-decreasing: `predict` never sets an earlier time, and
`predict_observation` and `assimilate` leave it unchanged. -/
theorem time_monotone {n : ℕ} {e e' : StateEstimator n}
    (h : Relation.ReflTransGen Step e e') : e.time ≤ e'.time := by
  induction h with
  | refl => exact le_refl _
  | tail _ hstep ih => exact ih.trans hstep.time_le

/-- Witness for C9: a concrete two-step sequence — a `predict_observation`
(which leaves the state unchanged) followed by an `assimilate` — never
decreases the scalar estimator's time. -/
theorem time_monotone_witness :
    scalarEstimator.time
      ≤ (scalarEstimator.assimilate scalarPredicted scalarObservation).time :=
  time_monotone
    (Relation.ReflTransGen.tail
      (Relation.ReflTransGen.single (Step.predict_observation scalarEstimator))
      (Step.assimilate 1 scalarPredicted scalarObservation))

/-- Applying a linear map `H` to every sigma point maps the weighted mean
by `H`. -/
theorem mapped_mean {n m k : ℕ} (H : Mat m n) (sp : SigmaPoints n k) :
    (SigmaPoints.mk (H * sp.points) sp.weights).mean = H.mulVec sp.mean := by
  unfold SigmaPoints.mean
  rw [Matrix.mulVec_mulVec]

/-- Applying a linear map `H` to every sigma point maps the centered samples
by `H`. -/
theorem mapped_centered {n m k : ℕ} (H : Mat m n) (sp : SigmaPoints n k) :
    (SigmaPoints.mk (H * sp.points) sp.weights).centered = H * sp.centered := by
  funext i j
  simp [SigmaPoints.centered, mapped_mean, Matrix.mul_apply, Matrix.mulVec,
    Matrix.dotProduct, mul_sub, Finset.sum_sub_distrib]

/-- Applying a linear map `H` to every sigma point transforms the recombined
statistics exactly linearly: mean `H·m`, covariance `H·P·Hᵀ`. -/
theorem mapped_statistics {n m k : ℕ} (H : Mat m n) (sp : SigmaPoints n k) :
    (SigmaPoints.mk (H * sp.points) sp.weights).statistics =
      { mean := H.mulVec sp.statistics.mean
        covariance := H * sp.statistics.covariance * H.transpose } := by
  simp only [SigmaPoints.statistics, MeanAndCovariance.mk.injEq]
  refine ⟨mapped_mean H sp, ?_⟩
  rw [mapped_centered]
  simp [Matrix.transpose_mul, Matrix.mul_assoc]

/-- C4: on a genuinely linear dynamics model `A` and observation model `H`,
the sampled (sigma-point) dispatch branch and the differentiable dispatch
branch of `predict` and of `predict_observation` produce identical results in
exact arithmetic — including the cross covariance — whenever the sampler
reproduces the current belief exactly (hypothesis `hsample`, the defining
property of an exact quadrature such as the cubature rule). -/
theorem linear_dispatch_equivalence {n m k : ℕ} (e : StateEstimator n) (t : ℚ)
    (A : Mat n n) (H : Mat m n)
    (process_noise : ℚ → Vec n → Mat n n → Mat n n)
    (sample : MeanAndCovariance n → SigmaPoints n k)
    (hsample : (sample e.estimate).statistics = e.estimate) :
    e.predict_sampled t sample (linDynamicsSampled A) process_noise
      = e.predict t (linDynamics A) process_noise
    ∧ e.predict_observation_sampled sample (linObserverSampled H) ()
      = e.predict_observation (linObserver H) () := by
  have hcov : (sample e.estimate).centered
        * Matrix.diagonal (sample e.estimate).weights
        * (sample e.estimate).centered.transpose
      = e.estimate.covariance :=
    congrArg MeanAndCovariance.covariance hsample
  constructor
  · by_cases h0 : t - e.time = 0
    · simp [StateEstimator.predict_sampled, StateEstimator.predict, h0]
    by_cases h1 : t - e.time < 0
    · simp [StateEstimator.predict_sampled, StateEstimator.predict, h0, h1]
    have hst : (linDynamicsSampled A (sample e.estimate) (t - e.time)).statistics
        = linDynamics A e.estimate (t - e.time) := by
      show (SigmaPoints.mk (A * (sample e.estimate).points)
        (sample e.estimate).weights).statistics = _
      rw [mapped_statistics, hsample]
      rfl
    simp only [StateEstimator.predict_sampled, StateEstimator.predict, h0, h1,
      if_false, reduceIte, hst]
  · have hobs : ((linObserverSampled H).run (sample e.estimate) ()).statistics
        = (linObserver H).run e.estimate () := by
      show (SigmaPoints.mk (H * (sample e.estimate).points)
        (sample e.estimate).weights).statistics = _
      rw [mapped_statistics, hsample]
      rfl
    have hcross : (sample e.estimate).centered
          * Matrix.diagonal (sample e.estimate).weights
          * ((linObserverSampled H).run (sample e.estimate) ()).centered.transpose
        = e.estimate.covariance * ((linObserver H).jacobian e.estimate ()).transpose := by
      show (sample e.estimate).centered
          * Matrix.diagonal (sample e.estimate).weights
          * (SigmaPoints.mk (H * (sample e.estimate).points)
              (sample e.estimate).weights).centered.transpose = _
      rw [mapped_centered, Matrix.transpose_mul, ← Matrix.mul_assoc, hcov]
      rfl
    simp only [StateEstimator.predict_observation_sampled,
      StateEstimator.predict_observation, hobs, hcross]

/-- The concrete sampler `scalarSample` is exact for the scalar belief:
points `±1` with weights `1/2` recombine to mean 0 and covariance 1. -/
theorem scalarSample_exact :
    (scalarSample scalarEstimator.estimate).statistics = scalarEstimator.estimate := by
  show scalarSigmaPoints.statistics = scalarBelief
  simp only [SigmaPoints.statistics, scalarBelief, MeanAndCovariance.mk.injEq]
  constructor
  · funext i
    fin_cases i
    simp [SigmaPoints.mean, scalarSigmaPoints, Matrix.mulVec, Matrix.dotProduct,
      Fin.sum_univ_two]
  · funext i j
    fin_cases i; fin_cases j
    simp [SigmaPoints.centered, SigmaPoints.mean, scalarSigmaPoints,
      Matrix.mul_apply, Matrix.diagonal, Matrix.transpose_apply, Matrix.mulVec,
      Matrix.dotProduct, Fin.sum_univ_two]
    norm_num

/-- Witness for C4 at concrete inputs: for the scalar estimator, transition
matrix 2 and the identity observation matrix, both dispatch branches agree
when sampling with the exact two-point rule. -/
theorem linear_dispatch_equivalence_witness :
    scalarEstimator.predict_sampled 1 scalarSample (linDynamicsSampled scalarTwo)
        scalarRate.run
      = scalarEstimator.predict 1 (linDynamics scalarTwo) scalarRate.run
    ∧ scalarEstimator.predict_observation_sampled scalarSample
        (linObserverSampled (1 : Mat 1 1)) ()
      = scalarEstimator.predict_observation (linObserver (1 : Mat 1 1)) () :=
  linear_dispatch_equivalence scalarEstimator 1 scalarTwo (1 : Mat 1 1)
    scalarRate.run scalarSample scalarSample_exact

end Vague
